import Mathlib

/-!
Verification development for the ai-legal-editor repository.

The development shallowly embeds the diff/patch engine
(`app/services/patch_engine.py`), the tracked-change patch applier
(`app/services/patch_applier.py`), the job pipeline
(`app/tasks/document_tasks.py` with `app/repositories/sync_repositories.py`)
and the patch-preview endpoint (`app/api/routes.py`) as executable Lean
definitions, and proves or refutes the specification claims about them.

Strings are embedded as `List Char` so that structural induction is
available; Python dictionaries become structures with the same field names.
-/

namespace AiLegalEditor

/-- Text is modelled as a list of characters. -/
abbrev Text := List Char

/- ---------------------------------------------------------------------
   Diff engine.
--------------------------------------------------------------------- -/

/-- A diff operation as produced by the diff engine: the numeric codes
-1 / 0 / 1 of diff-match-patch become a tagged variant. -/
inductive DiffOp : Type where
  | equal (text : Text)
  | insert (text : Text)
  | delete (text : Text)
deriving DecidableEq, Inhabited

/-- Longest common leading segment of two texts (helper for the modelled
diff; diff-match-patch trims the common head of both inputs the same way). -/
def commonPre : Text → Text → Text
  | c :: cs, d :: ds => if c = d then c :: commonPre cs ds else []
  | _, _ => []

/-- Emit an `equal` operation unless the span is empty. -/
def optE (t : Text) : List DiffOp := if t = [] then [] else [DiffOp.equal t]

/-- Emit a `delete` operation unless the span is empty. -/
def optD (t : Text) : List DiffOp := if t = [] then [] else [DiffOp.delete t]

/-- Emit an `insert` operation unless the span is empty. -/
def optI (t : Text) : List DiffOp := if t = [] then [] else [DiffOp.insert t]

/-- Modelled from the spec: the diff computation of
`PatchEngine.generate_diff` is performed by the external diff-match-patch
library (`diff_main` followed by `diff_cleanupSemantic`), which is not part
of this repository's sources.  Per spec section 4.1 the engine returns a
correct (not necessarily minimal) edit script whose `Equal` spans are common
to both inputs, with the documented degenerate cases.  The model trims the
longest common head, then the longest common tail of the remainders, and
emits the middles as one `delete` and one `insert`; every emitted operation
is nonempty, matching the cleanup pass that merges empty fragments away. -/
def generate_diff (original_text replacement_text : Text) : List DiffOp :=
  let p := commonPre original_text replacement_text
  let a1 := original_text.drop p.length
  let b1 := replacement_text.drop p.length
  let k := (commonPre a1.reverse b1.reverse).length
  let s := (commonPre a1.reverse b1.reverse).reverse
  optE p ++ optD (a1.reverse.drop k).reverse ++ optI (b1.reverse.drop k).reverse
    ++ optE s

/-- Text reproduced by the `Equal`+`Insert` operations of a diff. -/
def insText : DiffOp → Text
  | DiffOp.equal t => t
  | DiffOp.insert t => t
  | DiffOp.delete _ => []

/-- Text reproduced by the `Equal`+`Delete` operations of a diff. -/
def delText : DiffOp → Text
  | DiffOp.equal t => t
  | DiffOp.insert _ => []
  | DiffOp.delete t => t

/-- Concatenation of the `Equal`+`Insert` spans, in order. -/
def reconstructIns (ops : List DiffOp) : Text := (ops.map insText).flatten

/-- Concatenation of the `Equal`+`Delete` spans, in order. -/
def reconstructDel (ops : List DiffOp) : Text := (ops.map delText).flatten

/-- Number of characters contained in `Equal` operations. -/
def equalChars (ops : List DiffOp) : Nat :=
  List.foldr (fun o n => match o with
    | DiffOp.equal t => t.length + n
    | _ => n) 0 ops

/- ---------------------------------------------------------------------
   Structured patches (`PatchEngine.generate_patch` and friends).
--------------------------------------------------------------------- -/

/-- One entry of a patch's `operations` list, as built by
`PatchEngine.generate_patch`: a dictionary with string `type`, the span
text, the running `position` in the source string and the span length. -/
structure Operation where
  type : String
  text : Text
  position : Nat
  length : Nat
deriving DecidableEq, Inhabited

/-- `PatchEngine._get_operation_type`: numeric diff codes to strings. -/
def get_operation_type : DiffOp → String
  | DiffOp.equal _ => "equal"
  | DiffOp.insert _ => "insert"
  | DiffOp.delete _ => "delete"

/-- The text carried by a diff operation. -/
def opText : DiffOp → Text
  | DiffOp.equal t => t
  | DiffOp.insert t => t
  | DiffOp.delete t => t

/-- The operation-record loop of `PatchEngine.generate_patch`: each diff
tuple becomes a record at the running position; the position advances only
for `delete` and `equal` operations. -/
def buildOperations : List DiffOp → Nat → List Operation
  | [], _ => []
  | d :: ds, pos =>
    { type := get_operation_type d, text := opText d, position := pos,
      length := (opText d).length }
      :: buildOperations ds
          (match d with
            | DiffOp.insert _ => pos
            | _ => pos + (opText d).length)

/-- The dictionary returned by `PatchEngine.generate_patch`. -/
structure PatchData where
  original_text : Text
  replacement_text : Text
  operations : List Operation
  total_operations : Nat
  has_changes : Bool
deriving DecidableEq

/-- `PatchEngine.generate_patch`: run the diff, lay out operation records,
and flag whether any non-`equal` operation exists. -/
def generate_patch (original_text replacement_text : Text) : PatchData :=
  let diffs := generate_diff original_text replacement_text
  let operations := buildOperations diffs 0
  { original_text := original_text
    replacement_text := replacement_text
    operations := operations
    total_operations := operations.length
    has_changes := operations.any (fun op =>
      op.type == "insert" || op.type == "delete") }

/-- `PatchEngine.apply_patch_preview`: concatenate the text of `insert` and
`equal` operation records, in order.  (The Python function reads only the
`operations` key of its argument, so the model takes the list directly.) -/
def apply_patch_preview (operations : List Operation) : Text :=
  (operations.map (fun op =>
    if op.type == "insert" || op.type == "equal" then op.text else [])).flatten

/-- Concatenation of the text of `delete` and `equal` operation records, in
order; the statement vocabulary for the original-side round trip. -/
def equalDeleteConcat (operations : List Operation) : Text :=
  (operations.map (fun op =>
    if op.type == "delete" || op.type == "equal" then op.text else [])).flatten

/-- `PatchEngine.validate_patch`: a patch is valid when its preview equals
its replacement text.  (Reads only the `operations` and `replacement_text`
keys of the patch dictionary.) -/
def validate_patch (operations : List Operation) (replacement_text : Text) :
    Bool :=
  apply_patch_preview operations == replacement_text

/-- `PatchEngine.calculate_similarity`, with the Python float modelled as a
rational: equal characters over the larger input length, `1` when both
inputs are empty. -/
def calculate_similarity (original_text replacement_text : Text) : ℚ :=
  let diffs := generate_diff original_text replacement_text
  let total_chars := max original_text.length replacement_text.length
  if total_chars = 0 then 1
  else (equalChars diffs : ℚ) / (total_chars : ℚ)

/-- `PatchEngine.get_change_summary`'s result dictionary. -/
structure ChangeSummary where
  total_operations : Nat
  insertions : Nat
  deletions : Nat
  equal : Nat
  chars_inserted : Nat
  chars_deleted : Nat
deriving DecidableEq

/-- `PatchEngine.get_change_summary`: counts and character totals computed
from the operation records. -/
def get_change_summary (operations : List Operation) : ChangeSummary :=
  { total_operations := operations.length
    insertions := (operations.filter (fun op => op.type == "insert")).length
    deletions := (operations.filter (fun op => op.type == "delete")).length
    equal := (operations.filter (fun op => op.type == "equal")).length
    chars_inserted := ((operations.filter (fun op => op.type == "insert")).map
      (fun op => op.length)).sum
    chars_deleted := ((operations.filter (fun op => op.type == "delete")).map
      (fun op => op.length)).sum }

/- ---------------------------------------------------------------------
   Paragraph patches (`ParagraphPatchGenerator`).
--------------------------------------------------------------------- -/

/-- A proposed paragraph edit, as handed to
`ParagraphPatchGenerator.generate_paragraph_patches` by the edit oracle.
`paragraph_index` is optional in the source dictionary and defaults to
`paragraph_id`. -/
structure ParagraphEdit where
  paragraph_id : Nat
  paragraph_index : Option Nat
  original_text : Text
  replacement_text : Text
  reasoning : String
deriving DecidableEq

/-- A paragraph patch record, as built per edit by
`ParagraphPatchGenerator.generate_paragraph_patches`. -/
structure ParaPatch where
  paragraph_id : Nat
  paragraph_index : Nat
  original_text : Text
  replacement_text : Text
  operations : List Operation
  reasoning : String
  has_changes : Bool
  change_summary : ChangeSummary
deriving DecidableEq

/-- `ParagraphPatchGenerator.generate_paragraph_patches`: build one patch
per proposed edit. -/
def generate_paragraph_patches (paragraph_changes : List ParagraphEdit) :
    List ParaPatch :=
  paragraph_changes.map (fun change =>
    let patch_data := generate_patch change.original_text
      change.replacement_text
    { paragraph_id := change.paragraph_id
      paragraph_index := change.paragraph_index.getD change.paragraph_id
      original_text := change.original_text
      replacement_text := change.replacement_text
      operations := patch_data.operations
      reasoning := change.reasoning
      has_changes := patch_data.has_changes
      change_summary := get_change_summary patch_data.operations })

/-- `ParagraphPatchGenerator.validate_all_patches`: every patch must pass
`validate_patch` on its operations and replacement text (the source loop
returns `False` at the first failure, which is `List.all`). -/
def validate_all_patches (patches : List ParaPatch) : Bool :=
  patches.all (fun patch =>
    validate_patch patch.operations patch.replacement_text)

/- ---------------------------------------------------------------------
   Patch applier (`PatchApplier`), over an in-memory document model.
--------------------------------------------------------------------- -/

/-- An RGB colour as used by the applier's reserved markup colours. -/
structure RGB where
  r : Nat
  g : Nat
  b : Nat
deriving DecidableEq

/-- Reserved colour for deleted spans (`RGBColor(255, 0, 0)`). -/
def deletionColor : RGB := ⟨255, 0, 0⟩

/-- Reserved colour for inserted spans (`RGBColor(0, 128, 0)`). -/
def insertionColor : RGB := ⟨0, 128, 0⟩

/-- A formatted run of a paragraph.  The tri-state python-docx properties
(`True` / `False` / `None` meaning inherited) are modelled as `Option`s. -/
structure Run where
  text : Text
  bold : Option Bool
  italic : Option Bool
  underline : Option Bool
  strike : Option Bool
  font_name : Option String
  font_size : Option Nat
  color : Option RGB
deriving DecidableEq

/-- `paragraph.add_run(text)`: a fresh run carries the text and no explicit
formatting. -/
def add_run (text : Text) : Run :=
  { text := text, bold := none, italic := none, underline := none,
    strike := none, font_name := none, font_size := none, color := none }

/-- A paragraph is its ordered run list. -/
structure Paragraph where
  runs : List Run
deriving DecidableEq

/-- `paragraph.text` in python-docx: the concatenation of the run texts. -/
def Paragraph.text (p : Paragraph) : Text := (p.runs.map Run.text).flatten

/-- The formatting dictionary built by
`PatchApplier._extract_run_formatting`: tri-state flags collapse to plain
booleans (`None` becomes `False`), fonts are copied as-is. -/
structure RunFormatting where
  bold : Bool
  italic : Bool
  underline : Bool
  font_name : Option String
  font_size : Option Nat
deriving DecidableEq

/-- `PatchApplier._extract_run_formatting`. -/
def extract_run_formatting (run : Run) : RunFormatting :=
  { bold := run.bold.getD false
    italic := run.italic.getD false
    underline := run.underline.getD false
    font_name := run.font_name
    font_size := run.font_size }

/-- The `if formatting.get("font_name"):` guard of
`PatchApplier._apply_formatting`: the font name is written only when truthy
(present and non-empty). -/
def setFontName (run : Run) (name : Option String) : Run :=
  match name with
  | some n => if n ≠ "" then { run with font_name := some n } else run
  | none => run

/-- The `if formatting.get("font_size"):` guard of
`PatchApplier._apply_formatting`: the font size is written only when truthy
(present and nonzero). -/
def setFontSize (run : Run) (size : Option Nat) : Run :=
  match size with
  | some sz => if sz ≠ 0 then { run with font_size := some sz } else run
  | none => run

/-- `PatchApplier._apply_formatting`: a `None` formatting dictionary leaves
the run untouched; otherwise the boolean flags are written, and the font
name and size only when truthy. -/
def apply_formatting (run : Run) (formatting : Option RunFormatting) : Run :=
  match formatting with
  | none => run
  | some f =>
    setFontSize
      (setFontName
        { run with
          bold := some f.bold
          italic := some f.italic
          underline := some f.underline }
        f.font_name)
      f.font_size

/-- `PatchApplier._add_deleted_text`: append a run with the text, the
captured formatting, strikethrough and the reserved deletion colour.  The
`author` argument is accepted and unused, as in the source. -/
def add_deleted_text (runs : List Run) (text : Text) (author : String)
    (formatting : Option RunFormatting) : List Run :=
  let run := apply_formatting (add_run text) formatting
  runs ++ [{ run with strike := some true, color := some deletionColor }]

/-- `PatchApplier._add_inserted_text`: append a run with the text, the
captured formatting, underline and the reserved insertion colour. -/
def add_inserted_text (runs : List Run) (text : Text) (author : String)
    (formatting : Option RunFormatting) : List Run :=
  let run := apply_formatting (add_run text) formatting
  runs ++ [{ run with underline := some true, color := some insertionColor }]

/-- `PatchApplier._apply_single_paragraph_patch`: bounds-check the index,
capture the first run's formatting, clear the runs, then append the
deleted-original span (when the paragraph's current text is nonempty) and
the inserted-replacement span (when the new text is nonempty).  Returns the
success flag together with the resulting document. -/
def apply_single_paragraph_patch (doc : List Paragraph) (paragraph_id : Nat)
    (new_text : Text) (author : String) : Bool × List Paragraph :=
  if h : paragraph_id < doc.length then
    let paragraph := doc.get ⟨paragraph_id, h⟩
    let original_text := paragraph.text
    let formatting : Option RunFormatting :=
      match paragraph.runs with
      | [] => none
      | r :: _ => some (extract_run_formatting r)
    let runs0 : List Run := []
    let runs1 := if original_text = [] then runs0
      else add_deleted_text runs0 original_text author formatting
    let runs2 := if new_text = [] then runs1
      else add_inserted_text runs1 new_text author formatting
    (true, doc.set paragraph_id { runs := runs2 })
  else
    (false, doc)

/-- `PatchApplier.apply_paragraph_patches`: apply each patch in order,
counting successes; only the `paragraph_id` and `replacement_text` keys of
each patch dictionary are read. -/
def apply_paragraph_patches (doc : List Paragraph)
    (patches : List ParaPatch) (author : String) : Nat × List Paragraph :=
  match patches with
  | [] => (0, doc)
  | patch :: rest =>
    let step := apply_single_paragraph_patch doc patch.paragraph_id
      patch.replacement_text author
    let next := apply_paragraph_patches step.2 rest author
    ((if step.1 then 1 else 0) + next.1, next.2)

/- ---------------------------------------------------------------------
   Job pipeline (`process_edit_instruction`) and repositories.
--------------------------------------------------------------------- -/

/-- `JobStatus` from `app/models/database.py`. -/
inductive JobStatus : Type where
  | pending
  | processing
  | completed
  | failed
deriving DecidableEq, Inhabited

/-- The job row, restricted to the fields the pipeline reads and writes.
`patch_json` holds the persisted patch set (stored as JSON in the source;
modelled structurally). -/
structure Job where
  status : JobStatus
  instruction : String
  error_message : Option String
  patch_json : Option (List ParaPatch)
  started_at : Option Nat
  completed_at : Option Nat
deriving DecidableEq

/-- `SyncJobRepository.update_status`: set the status; stamp `started_at`
on `Processing` and `completed_at` on `Completed`/`Failed`; record the
error message when one is given (the source guards with Python truthiness,
so an empty string is not recorded). -/
def update_status (job : Job) (status : JobStatus) (now : Nat)
    (error_message : Option String) : Job :=
  let job := { job with status := status }
  let job := if status = JobStatus.processing then
      { job with started_at := some now }
    else job
  let job := if status = JobStatus.completed ∨ status = JobStatus.failed then
      { job with completed_at := some now }
    else job
  match error_message with
  | some e => if e ≠ "" then { job with error_message := some e } else job
  | none => job

/-- `SyncJobRepository.save_patch`: persist the patch set, mark the job
completed and stamp `completed_at`. -/
def save_patch (job : Job) (patches : List ParaPatch) (now : Nat) : Job :=
  { job with
    patch_json := some patches
    status := JobStatus.completed
    completed_at := some now }

/-- The result dictionary returned by the Celery task. -/
structure TaskResult where
  success : Bool
  error : Option String
  message : Option String
  edits_count : Option Nat
deriving DecidableEq

/-- The validation-and-persistence tail of `process_edit_instruction`
(the code after patch generation): validate the batch, then either persist
the patch set and complete the job, or fail it with a validation error and
persist nothing. -/
def pipeline_after_build (job : Job) (patches : List ParaPatch)
    (now : Nat) : Job × TaskResult :=
  if validate_all_patches patches then
    (save_patch job patches now,
     { success := true, error := none, message := none,
       edits_count := some patches.length })
  else
    (update_status job JobStatus.failed now
       (some "Generated patches failed validation"),
     { success := false, error := some "Patch validation failed",
       message := none, edits_count := none })

/-- `process_edit_instruction` from `app/tasks/document_tasks.py`.  The
external collaborators are abstracted to their observable outcomes: the job
row (or its absence), whether the document row exists, and the edit list
returned by the oracle.  The storage, parser, and agent calls that can only
raise (driving the generic exception branch to `Failed`) are not modelled;
all branches the claims quantify over are.  Time is an explicit `now`. -/
def process_edit_instruction (job : Option Job) (document_exists : Bool)
    (edits : List ParagraphEdit) (now : Nat) : Option Job × TaskResult :=
  match job with
  | none =>
    (none, { success := false, error := some "Job not found",
             message := none, edits_count := none })
  | some j =>
    let j1 := update_status j JobStatus.processing now none
    if !document_exists then
      (some (update_status j1 JobStatus.failed now
        (some "Document not found")),
       { success := false, error := some "Document not found",
         message := none, edits_count := none })
    else if edits.isEmpty then
      (some (update_status j1 JobStatus.completed now
        (some "No changes needed for this instruction")),
       { success := true, error := none,
         message := some "No changes needed", edits_count := some 0 })
    else
      let patches := generate_paragraph_patches edits
      let step := pipeline_after_build j1 patches now
      (some step.1, step.2)

/-- The patch-availability logic of `get_patch_preview` in
`app/api/routes.py` (after the job-existence and ownership checks): the
patch set is returned only when the status is `Completed` AND `patch_json`
is truthy; otherwise the request fails with `Patch not ready`. -/
def get_patch_preview (job : Option Job) (owner_ok : Bool) :
    Except String (List ParaPatch) :=
  match job with
  | none => Except.error "Job not found"
  | some j =>
    if !owner_ok then Except.error "Access denied"
    else
      match j.patch_json with
      | none => Except.error "Patch not ready"
      | some ps =>
        if j.status = JobStatus.completed then Except.ok ps
        else Except.error "Patch not ready"

/- Concrete fixtures used by witnesses and counterexamples. -/

/-- A fresh pending job with nothing persisted. -/
def demoPendingJob : Job :=
  { status := JobStatus.pending, instruction := "review",
    error_message := none, patch_json := none, started_at := none,
    completed_at := none }

/-- A terminal job: completed, with a persisted (empty) patch set. -/
def demoCompletedJob : Job :=
  { status := JobStatus.completed, instruction := "review",
    error_message := none, patch_json := some [], started_at := some 1,
    completed_at := some 2 }

/-- A patch record that cannot round-trip: no operations, yet a nonempty
replacement text. -/
def demoBadPatch : ParaPatch :=
  { paragraph_id := 0, paragraph_index := 0, original_text := [],
    replacement_text := ['x'], operations := [], reasoning := "",
    has_changes := false, change_summary := ⟨0, 0, 0, 0, 0, 0⟩ }

/-- A sole bold run carrying the text `o`. -/
def demoBoldRun : Run :=
  { text := ['o'], bold := some true, italic := none, underline := none,
    strike := none, font_name := none, font_size := none, color := none }

/-- A bold run whose text is empty. -/
def demoEmptyBoldRun : Run :=
  { text := [], bold := some true, italic := none, underline := none,
    strike := none, font_name := none, font_size := none, color := none }

/-- A patch whose `original_text` is nonempty while the target paragraph's
actual text is empty. -/
def demoMismatchedPatch : ParaPatch :=
  { paragraph_id := 0, paragraph_index := 0, original_text := ['x'],
    replacement_text := ['y'], operations := [], reasoning := "",
    has_changes := true, change_summary := ⟨0, 0, 0, 0, 0, 0⟩ }

/-- A patch replacing the text `o` with `n`, matching the paragraph that
holds `demoBoldRun`. -/
def demoPatchO : ParaPatch :=
  { paragraph_id := 0, paragraph_index := 0, original_text := ['o'],
    replacement_text := ['n'], operations := [], reasoning := "",
    has_changes := true, change_summary := ⟨0, 0, 0, 0, 0, 0⟩ }

/-- Two patches agreeing on `paragraph_id` and `replacement_text` but
differing in `original_text` and `operations`. -/
def demoPatchA : ParaPatch :=
  { paragraph_id := 0, paragraph_index := 0, original_text := ['a'],
    replacement_text := ['z'], operations := [], reasoning := "",
    has_changes := true, change_summary := ⟨0, 0, 0, 0, 0, 0⟩ }

/-- See `demoPatchA`. -/
def demoPatchB : ParaPatch :=
  { paragraph_id := 0, paragraph_index := 0, original_text := ['b'],
    replacement_text := ['z'],
    operations := [Operation.mk "equal" ['b'] 0 1],
    reasoning := "other", has_changes := false,
    change_summary := ⟨1, 0, 0, 1, 0, 0⟩ }

/- Splitting lemmas for `commonPre`. -/

theorem commonPre_append_drop_left :
    ∀ x y : Text, commonPre x y ++ x.drop (commonPre x y).length = x := by
  intro x
  induction x with
  | nil => intro y; cases y <;> simp [commonPre]
  | cons c cs ih =>
    intro y
    cases y with
    | nil => simp [commonPre]
    | cons d ds =>
      by_cases h : c = d
      · simp only [commonPre, if_pos h, List.length_cons, List.cons_append,
          List.drop_succ_cons]
        exact congrArg (c :: ·) (ih ds)
      · simp [commonPre, if_neg h]

theorem commonPre_append_drop_right :
    ∀ x y : Text, commonPre x y ++ y.drop (commonPre x y).length = y := by
  intro x
  induction x with
  | nil => intro y; cases y <;> simp [commonPre]
  | cons c cs ih =>
    intro y
    cases y with
    | nil => simp [commonPre]
    | cons d ds =>
      by_cases h : c = d
      · simp only [commonPre, if_pos h, List.length_cons, List.cons_append,
          List.drop_succ_cons]
        rw [h]
        exact congrArg (d :: ·) (ih ds)
      · simp [commonPre, if_neg h]

theorem commonPre_self : ∀ a : Text, commonPre a a = a := by
  intro a
  induction a with
  | nil => simp [commonPre]
  | cons c cs ih => simp [commonPre, ih]

/- Reconstruction distributes over the fragment lists. -/

theorem reconstructIns_append (xs ys : List DiffOp) :
    reconstructIns (xs ++ ys) = reconstructIns xs ++ reconstructIns ys := by
  simp [reconstructIns]

theorem reconstructDel_append (xs ys : List DiffOp) :
    reconstructDel (xs ++ ys) = reconstructDel xs ++ reconstructDel ys := by
  simp [reconstructDel]

theorem reconstructIns_optE (t : Text) : reconstructIns (optE t) = t := by
  by_cases h : t = [] <;> simp [optE, h, reconstructIns, insText]

theorem reconstructIns_optI (t : Text) : reconstructIns (optI t) = t := by
  by_cases h : t = [] <;> simp [optI, h, reconstructIns, insText]

theorem reconstructIns_optD (t : Text) : reconstructIns (optD t) = [] := by
  by_cases h : t = [] <;> simp [optD, h, reconstructIns, insText]

theorem reconstructDel_optE (t : Text) : reconstructDel (optE t) = t := by
  by_cases h : t = [] <;> simp [optE, h, reconstructDel, delText]

theorem reconstructDel_optD (t : Text) : reconstructDel (optD t) = t := by
  by_cases h : t = [] <;> simp [optD, h, reconstructDel, delText]

theorem reconstructDel_optI (t : Text) : reconstructDel (optI t) = [] := by
  by_cases h : t = [] <;> simp [optI, h, reconstructDel, delText]

/-- The trimmed tail together with the common tail restores the right input. -/
theorem tail_split_right (x y : Text) :
    (y.reverse.drop (commonPre x.reverse y.reverse).length).reverse
      ++ (commonPre x.reverse y.reverse).reverse = y := by
  have h := commonPre_append_drop_right x.reverse y.reverse
  have h2 := congrArg List.reverse h
  rw [List.reverse_append, List.reverse_reverse] at h2
  exact h2

/-- The trimmed tail together with the common tail restores the left input. -/
theorem tail_split_left (x y : Text) :
    (x.reverse.drop (commonPre x.reverse y.reverse).length).reverse
      ++ (commonPre x.reverse y.reverse).reverse = x := by
  have h := commonPre_append_drop_left x.reverse y.reverse
  have h2 := congrArg List.reverse h
  rw [List.reverse_append, List.reverse_reverse] at h2
  exact h2

/-- Round-trip, insert side: `Equal`+`Insert` spans of the diff rebuild the
replacement text. -/
theorem reconstructIns_generate_diff (a b : Text) :
    reconstructIns (generate_diff a b) = b := by
  unfold generate_diff
  simp only [reconstructIns_append, reconstructIns_optE, reconstructIns_optD,
    reconstructIns_optI, List.append_nil, List.nil_append]
  rw [List.append_assoc, tail_split_right]
  exact commonPre_append_drop_right a b

/-- Round-trip, delete side: `Equal`+`Delete` spans of the diff rebuild the
original text. -/
theorem reconstructDel_generate_diff (a b : Text) :
    reconstructDel (generate_diff a b) = a := by
  unfold generate_diff
  simp only [reconstructDel_append, reconstructDel_optE, reconstructDel_optD,
    reconstructDel_optI, List.append_nil, List.nil_append]
  rw [List.append_assoc, tail_split_left]
  exact commonPre_append_drop_left a b

/- Record-level previews agree with the diff-level reconstructions. -/

theorem apply_patch_preview_buildOperations (ds : List DiffOp) (pos : Nat) :
    apply_patch_preview (buildOperations ds pos) = reconstructIns ds := by
  induction ds generalizing pos with
  | nil => simp [apply_patch_preview, buildOperations, reconstructIns]
  | cons d ds ih =>
    cases d <;>
      simp_all [apply_patch_preview, buildOperations, reconstructIns,
        get_operation_type, opText, insText]

theorem equalDeleteConcat_buildOperations (ds : List DiffOp) (pos : Nat) :
    equalDeleteConcat (buildOperations ds pos) = reconstructDel ds := by
  induction ds generalizing pos with
  | nil => simp [equalDeleteConcat, buildOperations, reconstructDel]
  | cons d ds ih =>
    cases d <;>
      simp_all [equalDeleteConcat, buildOperations, reconstructDel,
        get_operation_type, opText, delText]

/- Character-count bounds for the similarity score. -/

theorem equalChars_append (xs ys : List DiffOp) :
    equalChars (xs ++ ys) = equalChars xs + equalChars ys := by
  induction xs with
  | nil => simp [equalChars]
  | cons d ds ih => cases d <;> simp [equalChars] at ih ⊢ <;> omega

theorem equalChars_optE (t : Text) : equalChars (optE t) = t.length := by
  by_cases h : t = [] <;> simp [optE, h, equalChars]

theorem equalChars_optD (t : Text) : equalChars (optD t) = 0 := by
  by_cases h : t = [] <;> simp [optD, h, equalChars]

theorem equalChars_optI (t : Text) : equalChars (optI t) = 0 := by
  by_cases h : t = [] <;> simp [optI, h, equalChars]

theorem equalChars_generate_diff_le_left (a b : Text) :
    equalChars (generate_diff a b) ≤ a.length := by
  unfold generate_diff
  simp only [equalChars_append, equalChars_optE, equalChars_optD,
    equalChars_optI, List.length_reverse]
  have h1 : (commonPre a b).length
      + (a.drop (commonPre a b).length).length = a.length := by
    have h := congrArg List.length (commonPre_append_drop_left a b)
    simpa using h
  have h2 := congrArg List.length
    (tail_split_left (a.drop (commonPre a b).length)
      (b.drop (commonPre a b).length))
  simp only [List.length_append, List.length_reverse] at h2
  omega

theorem equalChars_generate_diff_le_right (a b : Text) :
    equalChars (generate_diff a b) ≤ b.length := by
  unfold generate_diff
  simp only [equalChars_append, equalChars_optE, equalChars_optD,
    equalChars_optI, List.length_reverse]
  have h1 : (commonPre a b).length
      + (b.drop (commonPre a b).length).length = b.length := by
    have h := congrArg List.length (commonPre_append_drop_right a b)
    simpa using h
  have h2 := congrArg List.length
    (tail_split_right (a.drop (commonPre a b).length)
      (b.drop (commonPre a b).length))
  simp only [List.length_append, List.length_reverse] at h2
  omega

/- Degenerate-case lemmas for the diff. -/

theorem generate_diff_self (a : Text) (h : a ≠ []) :
    generate_diff a a = [DiffOp.equal a] := by
  simp only [generate_diff, commonPre_self, List.drop_length]
  simp [commonPre, optE, optD, optI, h]

theorem generate_diff_nil_left (b : Text) (h : b ≠ []) :
    generate_diff [] b = [DiffOp.insert b] := by
  simp only [generate_diff]
  simp [commonPre, optE, optD, optI, h]

theorem generate_diff_nil_right (a : Text) (h : a ≠ []) :
    generate_diff a [] = [DiffOp.delete a] := by
  have hc : commonPre a [] = [] := by cases a <;> simp [commonPre]
  simp only [generate_diff, hc]
  simp [commonPre, optE, optD, optI, h]

theorem generate_patch_self_no_changes (a : Text) :
    (generate_patch a a).has_changes = false := by
  by_cases h : a = []
  · subst h; rfl
  · simp [generate_patch, generate_diff_self a h, buildOperations,
      get_operation_type, opText]

/- ---------------------------------------------------------------------
   Claims C1, C5, C6.
--------------------------------------------------------------------- -/

/-- Claim C1: for every pair of strings (original, replacement), the
operation sequence produced by `generate_patch` satisfies the round-trip
invariant — concatenating the text of all equal and insert operations, in
order, yields the replacement exactly, and concatenating the text of all
equal and delete operations, in order, yields the original exactly. -/
theorem claim_c1_round_trip (a b : Text) :
    apply_patch_preview (generate_patch a b).operations = b ∧
    equalDeleteConcat (generate_patch a b).operations = a := by
  have hops : (generate_patch a b).operations
      = buildOperations (generate_diff a b) 0 := rfl
  constructor
  · rw [hops, apply_patch_preview_buildOperations,
      reconstructIns_generate_diff]
  · rw [hops, equalDeleteConcat_buildOperations,
      reconstructDel_generate_diff]

/-- Claim C5 counterexample: at `a = ""` the claim's universally quantified
first clause fails — `diff("", "")` is the empty operation sequence, not a
single `Equal` operation. -/
theorem claim_c5_counterexample :
    generate_diff ([] : Text) [] = []
      ∧ (generate_diff ([] : Text) []).length ≠ 1 := by
  constructor
  · rfl
  · intro h
    simp [generate_diff, commonPre, optE, optD, optI] at h

/-- Claim C5 as amended: for every non-empty string `a`, `diff(a, a)` is a
single `Equal` operation carrying all of `a`; `has_changes` of the
identical-input patch is `false` for every `a` (empty included); a diff
from empty yields a single `Insert`, a diff to empty a single `Delete`,
and `diff("", "")` is empty. -/
theorem claim_c5_degenerate :
    (∀ a : Text, a ≠ [] → generate_diff a a = [DiffOp.equal a]) ∧
    (∀ a : Text, (generate_patch a a).has_changes = false) ∧
    (∀ b : Text, b ≠ [] → generate_diff [] b = [DiffOp.insert b]) ∧
    (∀ a : Text, a ≠ [] → generate_diff a [] = [DiffOp.delete a]) ∧
    generate_diff ([] : Text) [] = [] :=
  ⟨generate_diff_self, generate_patch_self_no_changes,
    generate_diff_nil_left, generate_diff_nil_right, rfl⟩

/-- Witness for the amended claim C5 at concrete inputs. -/
theorem claim_c5_degenerate_witness :
    generate_diff ['x'] ['x'] = [DiffOp.equal ['x']] ∧
    generate_diff [] ['y'] = [DiffOp.insert ['y']] ∧
    generate_diff ['z'] [] = [DiffOp.delete ['z']] :=
  ⟨claim_c5_degenerate.1 ['x'] (by decide),
    claim_c5_degenerate.2.2.1 ['y'] (by decide),
    claim_c5_degenerate.2.2.2.1 ['z'] (by decide)⟩

/-- Claim C6: the similarity score is equal characters over the larger
input length whenever that maximum is nonzero, always lies in `[0, 1]`,
and equals `1` when both inputs are empty. -/
theorem claim_c6_similarity :
    (∀ a b : Text, max a.length b.length ≠ 0 →
        calculate_similarity a b
          = (equalChars (generate_diff a b) : ℚ)
              / ((max a.length b.length : Nat) : ℚ)) ∧
    (∀ a b : Text,
        0 ≤ calculate_similarity a b ∧ calculate_similarity a b ≤ 1) ∧
    calculate_similarity [] [] = 1 := by
  refine ⟨fun a b h => ?_, fun a b => ?_, rfl⟩
  · simp only [calculate_similarity, if_neg h]
  · by_cases h : max a.length b.length = 0
    · simp [calculate_similarity, h]
    · have hpos : (0 : ℚ) < ((max a.length b.length : Nat) : ℚ) := by
        exact_mod_cast Nat.pos_of_ne_zero h
      have hle : (equalChars (generate_diff a b) : ℚ)
          ≤ ((max a.length b.length : Nat) : ℚ) := by
        exact_mod_cast le_trans (equalChars_generate_diff_le_left a b)
          (le_max_left a.length b.length)
      constructor
      · simp only [calculate_similarity, if_neg h]
        exact div_nonneg (Nat.cast_nonneg _) (le_of_lt hpos)
      · simp only [calculate_similarity, if_neg h]
        exact (div_le_one hpos).mpr hle

/-- Witness for claim C6 at a concrete input with a nonzero maximum. -/
theorem claim_c6_similarity_witness :
    calculate_similarity ['a'] ['b']
      = (equalChars (generate_diff ['a'] ['b']) : ℚ)
          / ((max (List.length (['a'] : Text))
              (List.length (['b'] : Text)) : Nat) : ℚ) :=
  claim_c6_similarity.1 ['a'] ['b'] (by decide)

/- Field-level facts about formatting application. -/

theorem setFontName_spec (r : Run) (n : Option String) :
    ∃ v, setFontName r n = { r with font_name := v } := by
  cases n with
  | none => exact ⟨r.font_name, rfl⟩
  | some n =>
    by_cases h : n ≠ ""
    · exact ⟨some n, by simp [setFontName, h]⟩
    · exact ⟨r.font_name, by simp [setFontName, h]⟩

theorem setFontSize_spec (r : Run) (n : Option Nat) :
    ∃ v, setFontSize r n = { r with font_size := v } := by
  cases n with
  | none => exact ⟨r.font_size, rfl⟩
  | some sz =>
    by_cases h : sz ≠ 0
    · exact ⟨some sz, by simp [setFontSize, h]⟩
    · exact ⟨r.font_size, by simp [setFontSize, h]⟩

theorem apply_formatting_add_run_fields (t : Text) (f : RunFormatting) :
    (apply_formatting (add_run t) (some f)).text = t ∧
    (apply_formatting (add_run t) (some f)).bold = some f.bold ∧
    (apply_formatting (add_run t) (some f)).italic = some f.italic ∧
    (apply_formatting (add_run t) (some f)).underline = some f.underline ∧
    (apply_formatting (add_run t) (some f)).strike = none ∧
    (apply_formatting (add_run t) (some f)).color = none := by
  simp only [apply_formatting, add_run]
  obtain ⟨v1, h1⟩ := setFontName_spec
    { text := t, bold := some f.bold, italic := some f.italic,
      underline := some f.underline, strike := none, font_name := none,
      font_size := none, color := none } f.font_name
  rw [h1]
  obtain ⟨v2, h2⟩ := setFontSize_spec _ f.font_size
  rw [h2]
  exact ⟨rfl, rfl, rfl, rfl, rfl, rfl⟩

theorem apply_formatting_text (r : Run) (f : Option RunFormatting) :
    (apply_formatting r f).text = r.text := by
  cases f with
  | none => rfl
  | some f =>
    simp only [apply_formatting]
    obtain ⟨v1, h1⟩ := setFontName_spec
      { r with
        bold := some f.bold
        italic := some f.italic
        underline := some f.underline } f.font_name
    rw [h1]
    obtain ⟨v2, h2⟩ := setFontSize_spec _ f.font_size
    rw [h2]

/-- Claim C8: applying a patch whose `paragraph_id` is at or beyond the
document's paragraph count reports failure (rather than silently
succeeding) and returns the document with every paragraph unmodified. -/
theorem claim_c8_out_of_range (doc : List Paragraph) (paragraph_id : Nat)
    (new_text : Text) (author : String) (h : doc.length ≤ paragraph_id) :
    apply_single_paragraph_patch doc paragraph_id new_text author
      = (false, doc) := by
  unfold apply_single_paragraph_patch
  rw [dif_neg (by omega)]

/-- Witness for claim C8: a one-paragraph document and index 5. -/
theorem claim_c8_out_of_range_witness :
    apply_single_paragraph_patch [Paragraph.mk []] 5 ['x'] "AI Assistant"
      = (false, [Paragraph.mk []]) :=
  claim_c8_out_of_range [Paragraph.mk []] 5 ['x'] "AI Assistant" (by decide)

/-- Claim C10: the batch applier reads only the `paragraph_id` and
`replacement_text` fields of each patch, so patch lists that agree on
those two fields produce identical output; moreover the deleted span it
writes carries the paragraph's current text as found in the loaded
document. -/
theorem claim_c10_apply_projection :
    (∀ (doc : List Paragraph) (author : String)
        (ps1 ps2 : List ParaPatch),
      ps1.map (fun p => (p.paragraph_id, p.replacement_text))
        = ps2.map (fun p => (p.paragraph_id, p.replacement_text)) →
      apply_paragraph_patches doc ps1 author
        = apply_paragraph_patches doc ps2 author) ∧
    (∀ (doc : List Paragraph) (paragraph_id : Nat) (t : Text)
        (author : String),
      paragraph_id < doc.length →
      (doc.getD paragraph_id (Paragraph.mk [])).text ≠ [] →
      (((apply_single_paragraph_patch doc paragraph_id t author).2.getD
          paragraph_id (Paragraph.mk [])).runs.head?.map Run.text)
        = some (doc.getD paragraph_id (Paragraph.mk [])).text) := by
  constructor
  · intro doc author ps1
    induction ps1 generalizing doc with
    | nil =>
      intro ps2 h
      cases ps2 with
      | nil => rfl
      | cons q qs => simp at h
    | cons p ps ih =>
      intro ps2 h
      cases ps2 with
      | nil => simp at h
      | cons q qs =>
        simp only [List.map_cons, List.cons.injEq, Prod.mk.injEq] at h
        obtain ⟨⟨hid, hrt⟩, htl⟩ := h
        simp only [apply_paragraph_patches, hid, hrt]
        rw [ih _ _ htl]
  · intro doc paragraph_id t author h hne
    have hget := List.getD_eq_getElem doc (Paragraph.mk []) h
    rw [hget] at hne ⊢
    unfold apply_single_paragraph_patch
    rw [dif_pos h]
    cases hm : (doc.get ⟨paragraph_id, h⟩).runs with
    | nil =>
      exfalso
      apply hne
      have hg : doc[paragraph_id] = doc.get ⟨paragraph_id, h⟩ := rfl
      rw [← hg] at hm
      simp [Paragraph.text, hm]
    | cons r rs =>
      by_cases ht : t = [] <;>
        simp [ht, hm, hne, add_deleted_text, add_inserted_text,
          apply_formatting_text, add_run, List.getD_eq_getElem?_getD,
          List.getElem?_set_eq_of_lt, h, List.get_eq_getElem]

/- ---------------------------------------------------------------------
   Claims C2, C3, C4, C9 (pipeline and preview), C7 (tracked changes).
--------------------------------------------------------------------- -/

/-- Claim C2: if any patch record entering batch validation fails the
round-trip check, then `validate_all_patches` reports `false`, the
pipeline's validation tail transitions the job to `Failed` with a
validation error, and the job's persisted patch set is left untouched
(nothing is persisted). -/
theorem claim_c2_batch_fail_closed (job : Job) (patches : List ParaPatch)
    (now : Nat)
    (h : ∃ p ∈ patches,
      validate_patch p.operations p.replacement_text = false) :
    validate_all_patches patches = false ∧
    (pipeline_after_build job patches now).1.status = JobStatus.failed ∧
    (pipeline_after_build job patches now).1.patch_json = job.patch_json ∧
    (pipeline_after_build job patches now).1.error_message
      = some "Generated patches failed validation" ∧
    (pipeline_after_build job patches now).2.success = false := by
  obtain ⟨p, hp, hv⟩ := h
  have hall : validate_all_patches patches = false := by
    rw [validate_all_patches, List.all_eq_false]
    exact ⟨p, hp, by simp [hv]⟩
  refine ⟨hall, ?_, ?_, ?_, ?_⟩ <;>
    simp [pipeline_after_build, hall, update_status]

/-- Witness for claim C2: a batch holding a single non-round-tripping
patch record. -/
theorem claim_c2_batch_fail_closed_witness :
    validate_all_patches [demoBadPatch] = false ∧
    (pipeline_after_build demoPendingJob [demoBadPatch] 0).1.status
      = JobStatus.failed ∧
    (pipeline_after_build demoPendingJob [demoBadPatch] 0).1.patch_json
      = demoPendingJob.patch_json ∧
    (pipeline_after_build demoPendingJob [demoBadPatch] 0).1.error_message
      = some "Generated patches failed validation" ∧
    (pipeline_after_build demoPendingJob [demoBadPatch] 0).2.success
      = false :=
  claim_c2_batch_fail_closed demoPendingJob [demoBadPatch] 0
    ⟨demoBadPatch, by simp, by decide⟩

/-- Claim C3 counterexample: re-invoking the pipeline on an
already-completed job is not a no-op — with the document row gone, the
re-run mutates the completed job all the way to `Failed`. -/
theorem claim_c3_counterexample :
    demoCompletedJob.status = JobStatus.completed ∧
    ((process_edit_instruction (some demoCompletedJob) false [] 5).1.map
        Job.status)
      = some JobStatus.failed ∧
    (process_edit_instruction (some demoCompletedJob) false [] 5).1
      ≠ some demoCompletedJob := by
  refine ⟨rfl, rfl, ?_⟩
  intro h
  have := congrArg (Option.map Job.status) h
  simp [process_edit_instruction, update_status, demoCompletedJob] at this

/-- Claim C3 as amended: the pipeline never reads the job's current
status, so re-invocation on a terminal job is not a no-op — it re-executes
the whole pipeline exactly as for a fresh job, overwriting the status and
timestamps with the outcome of the re-run. -/
theorem claim_c3_status_ignored (j : Job) (st : JobStatus)
    (document_exists : Bool) (edits : List ParagraphEdit) (now : Nat) :
    process_edit_instruction (some { j with status := st })
        document_exists edits now
      = process_edit_instruction (some j) document_exists edits now := rfl

/-- Claim C4: a run in which the oracle returns zero edits completes the
job (not fails it) with nothing persisted in the patch set and an
explanatory message. -/
theorem claim_c4_zero_edits (j : Job) (now : Nat)
    (h : j.patch_json = none) :
    ((process_edit_instruction (some j) true [] now).1.map Job.status)
      = some JobStatus.completed ∧
    ((process_edit_instruction (some j) true [] now).1.map Job.patch_json)
      = some none ∧
    ((process_edit_instruction (some j) true [] now).1.map
        Job.error_message)
      = some (some "No changes needed for this instruction") ∧
    (process_edit_instruction (some j) true [] now).2.success = true ∧
    (process_edit_instruction (some j) true [] now).2.message
      = some "No changes needed" := by
  refine ⟨?_, ?_, ?_, rfl, rfl⟩ <;>
    simp [process_edit_instruction, update_status, h]

/-- Witness for claim C4 on a fresh pending job. -/
theorem claim_c4_zero_edits_witness :
    ((process_edit_instruction (some demoPendingJob) true [] 7).1.map
        Job.status)
      = some JobStatus.completed ∧
    ((process_edit_instruction (some demoPendingJob) true [] 7).1.map
        Job.patch_json)
      = some none ∧
    ((process_edit_instruction (some demoPendingJob) true [] 7).1.map
        Job.error_message)
      = some (some "No changes needed for this instruction") ∧
    (process_edit_instruction (some demoPendingJob) true [] 7).2.success
      = true ∧
    (process_edit_instruction (some demoPendingJob) true [] 7).2.message
      = some "No changes needed" :=
  claim_c4_zero_edits demoPendingJob 7 rfl

/-- Claim C9 counterexample: the pipeline completes a zero-edit job
without persisting a patch set, and the preview endpoint then rejects the
request even though the job's status is `Completed` — so preview is not
available for every Completed job. -/
theorem claim_c9_counterexample :
    ((process_edit_instruction (some demoPendingJob) true [] 3).1.map
        Job.status)
      = some JobStatus.completed ∧
    ((process_edit_instruction (some demoPendingJob) true [] 3).1.map
        (fun j2 => get_patch_preview (some j2) true))
      = some (Except.error "Patch not ready") := ⟨rfl, rfl⟩

/-- Claim C9 as amended: given the job exists and ownership passes, the
preview returns the persisted patch set exactly when the status is
`Completed` and a patch set is persisted; in any other status, or for a
Completed job with no persisted patch set (the zero-edit completion), the
request fails. -/
theorem claim_c9_preview (j : Job) :
    (∀ ps, j.patch_json = some ps → j.status = JobStatus.completed →
        get_patch_preview (some j) true = Except.ok ps) ∧
    (j.status ≠ JobStatus.completed ∨ j.patch_json = none →
        get_patch_preview (some j) true
          = Except.error "Patch not ready") := by
  constructor
  · intro ps hps hst
    simp [get_patch_preview, hps, hst]
  · intro h
    rcases h with h | h
    · cases hps : j.patch_json <;> simp [get_patch_preview, hps, h]
    · simp [get_patch_preview, h]

/-- Witness for the amended claim C9: a completed job with a persisted
patch set previews it; a pending job is rejected. -/
theorem claim_c9_preview_witness :
    get_patch_preview (some demoCompletedJob) true = Except.ok [] ∧
    get_patch_preview (some demoPendingJob) true
      = Except.error "Patch not ready" :=
  ⟨(claim_c9_preview demoCompletedJob).1 [] rfl rfl,
   (claim_c9_preview demoPendingJob).2 (Or.inr rfl)⟩

/-- Claim C7 counterexample: a paragraph with one (bold) run whose text is
empty, patched with nonempty `original_text` and `replacement_text`,
yields one run, not the claimed two — the deleted span follows the
paragraph's current text, not the patch's `original_text`. -/
theorem claim_c7_counterexample :
    demoMismatchedPatch.original_text ≠ [] ∧
    demoMismatchedPatch.replacement_text ≠ [] ∧
    ([Paragraph.mk [demoEmptyBoldRun]].getD 0
        (Paragraph.mk [])).runs.length = 1 ∧
    (((apply_paragraph_patches [Paragraph.mk [demoEmptyBoldRun]]
        [demoMismatchedPatch] "AI Assistant").2.getD 0
        (Paragraph.mk [])).runs.length = 1) ∧
    (((apply_paragraph_patches [Paragraph.mk [demoEmptyBoldRun]]
        [demoMismatchedPatch] "AI Assistant").2.getD 0
        (Paragraph.mk [])).runs.length ≠ 2) := by
  refine ⟨by decide, by decide, rfl, ?_, ?_⟩ <;> decide

/-- Claim C7 as amended: under the documented precondition that the
patch's `original_text` equals the target paragraph's current text (and
both it and the replacement are nonempty, and the paragraph has at least
one run), tracked-change apply yields exactly two runs — the original text
with the first run's captured formatting plus strikethrough and the
reserved deletion colour, then the replacement text with the same captured
formatting plus underline and the reserved insertion colour. -/
theorem claim_c7_tracked_change_formatting
    (doc : List Paragraph) (paragraph_id : Nat) (author : String)
    (patch : ParaPatch) (h : paragraph_id < doc.length)
    (r0 : Run) (rs : List Run)
    (hruns : (doc.get ⟨paragraph_id, h⟩).runs = r0 :: rs)
    (horig : patch.original_text = (doc.get ⟨paragraph_id, h⟩).text)
    (hone : patch.original_text ≠ [])
    (hrepl : patch.replacement_text ≠ []) :
    (((apply_single_paragraph_patch doc paragraph_id
        patch.replacement_text author).2.getD paragraph_id
        (Paragraph.mk [])).runs.map (fun r =>
          (r.text, r.bold, r.italic, r.underline, r.strike, r.color)))
      = [(patch.original_text,
          some (extract_run_formatting r0).bold,
          some (extract_run_formatting r0).italic,
          some (extract_run_formatting r0).underline,
          some true, some deletionColor),
         (patch.replacement_text,
          some (extract_run_formatting r0).bold,
          some (extract_run_formatting r0).italic,
          some true, none, some insertionColor)] := by
  rw [horig] at hone ⊢
  unfold apply_single_paragraph_patch
  rw [dif_pos h]
  have hg : doc.get ⟨paragraph_id, h⟩ = doc[paragraph_id] := rfl
  rw [hg] at hruns hone ⊢
  obtain ⟨hT1, hB1, hI1, hU1, hS1, hC1⟩ :=
    apply_formatting_add_run_fields doc[paragraph_id].text
      (extract_run_formatting r0)
  obtain ⟨hT2, hB2, hI2, hU2, hS2, hC2⟩ :=
    apply_formatting_add_run_fields patch.replacement_text
      (extract_run_formatting r0)
  simp [hruns, hone, hrepl, add_deleted_text, add_inserted_text,
    List.getD_eq_getElem?_getD, List.getElem?_set_eq_of_lt, h,
    hT1, hB1, hI1, hU1, hS1, hC1, hT2, hB2, hI2, hU2, hS2, hC2]

/-- Witness for the amended claim C7: a sole bold run, original text `o`,
replacement `n` — two bold runs result, the first struck through in the
deletion colour, the second underlined in the insertion colour. -/
theorem claim_c7_tracked_change_formatting_witness :
    (((apply_single_paragraph_patch [Paragraph.mk [demoBoldRun]] 0
        demoPatchO.replacement_text "AI Assistant").2.getD 0
        (Paragraph.mk [])).runs.map (fun r =>
          (r.text, r.bold, r.italic, r.underline, r.strike, r.color)))
      = [(demoPatchO.original_text, some true, some false, some false,
          some true, some deletionColor),
         (demoPatchO.replacement_text, some true, some false, some true,
          none, some insertionColor)] :=
  claim_c7_tracked_change_formatting [Paragraph.mk [demoBoldRun]] 0
    "AI Assistant" demoPatchO (by decide) demoBoldRun [] rfl rfl
    (by decide) (by decide)

/-- Witness for claim C10: patches differing only in `original_text` and
`operations` produce identical output, and the deleted span follows the
document's text. -/
theorem claim_c10_apply_projection_witness :
    (apply_paragraph_patches [Paragraph.mk []] [demoPatchA] "a"
      = apply_paragraph_patches [Paragraph.mk []] [demoPatchB] "a") ∧
    ((((apply_single_paragraph_patch [Paragraph.mk [demoBoldRun]] 0 ['n']
        "a").2.getD 0 (Paragraph.mk [])).runs.head?.map Run.text)
      = some ['o']) :=
  ⟨claim_c10_apply_projection.1 [Paragraph.mk []] "a" [demoPatchA]
      [demoPatchB] rfl,
   claim_c10_apply_projection.2 [Paragraph.mk [demoBoldRun]] 0 ['n'] "a"
      (by decide) (by decide)⟩

end AiLegalEditor

